import Mathlib

/-!
Shallow embedding of the LT8722 SPI register-protocol library
(`LT8722SPI.h`/`LT8722SPI.cpp` and `LT8722.cpp`).

The SPI bus is full duplex: every transferred byte simultaneously captures one
byte from the device.  The device side is modelled as a response stream
`resp : ℕ → ℕ` giving the byte captured by the k-th transfer since the start
of the run; a transaction takes the current stream offset and returns the
`DataSPI` result, the next offset, and the list of bytes it sent (MOSI).

`double` arithmetic of the source is modelled over `ℚ` (exact rationals),
with the IEEE special cases of the ramp's division modelled explicitly by
`DSteps`, and the `double → uint32_t` conversion of the voltage encoder
modelled as truncation toward zero followed by reduction mod 2^32.
-/

namespace LT8722

/-- Modelled from the spec: `CRC8.h` (functions `getCRC2`, `getCRC6` and the
core CRC routine) is not part of the sources.  The spec describes a
table-driven CRC8: the running value starts at 0x00 and for each input byte
becomes `table[running XOR byte]`.  The 256-entry table contents are an open
parameter of the spec, so the table is a parameter here. -/
def crc8 (table : ℕ → ℕ) (bytes : List ℕ) : ℕ :=
  bytes.foldl (fun r b => table ((r ^^^ b) % 256) % 256) 0

/-- Modelled from the spec: `checkCRC(status, data, length, crc)` from the
missing `CRC8.h` compares the CRC8 computed locally over the first `length`
bytes of the status bytes followed by the data bytes against the captured
CRC byte (spec invariant I2). -/
def checkCRC (table : ℕ → ℕ) (status data : List ℕ) (len : ℕ) (c : ℕ) : Bool :=
  crc8 table ((status ++ data).take len) == c

/-- Byte captured from the device response stream at position `k`. -/
def byteOf (resp : ℕ → ℕ) (k : ℕ) : ℕ := resp k % 256

/-- `(address << 1) & 0xFE` performed on a `uint8_t`. -/
def addrByte (address : ℕ) : ℕ := (((address % 256) <<< 1) % 256) &&& 0xFE

/-- The `dataSPI` structure of `LT8722SPI.h`. -/
structure DataSPI where
  status : List ℕ
  data : List ℕ
  crc : ℕ
  ack : ℕ
  error : Bool
deriving DecidableEq

/-- Result of one transaction: packet, next stream offset, bytes sent. -/
abbrev Trans := DataSPI × ℕ × List ℕ

/-- `readStatus`: 4-byte status-acquisition frame (command 0xF0, address 1). -/
def readStatusT (table : ℕ → ℕ) (resp : ℕ → ℕ) (off : ℕ) : Trans :=
  let sendingPacket : List ℕ := [0xF0, addrByte 0x01]
  let s0 := byteOf resp off
  let s1 := byteOf resp (off + 1)
  let c := byteOf resp (off + 2)
  let a := byteOf resp (off + 3)
  let dat : List ℕ := [0, 0, 0, 0]
  let err := if a = 0xA5 then (if checkCRC table [s0, s1] dat 2 c then false else true)
             else true
  (⟨[s0, s1], dat, c, a, err⟩, off + 4,
    sendingPacket ++ [crc8 table sendingPacket, 0x00])

/-- `readRegister`: 8-byte data-read frame (command 0xF4). -/
def readRegisterT (table : ℕ → ℕ) (address : ℕ) (resp : ℕ → ℕ) (off : ℕ) : Trans :=
  let sendingPacket : List ℕ := [0xF4, addrByte address]
  let s0 := byteOf resp off
  let s1 := byteOf resp (off + 1)
  let d0 := byteOf resp (off + 2)
  let d1 := byteOf resp (off + 3)
  let d2 := byteOf resp (off + 4)
  let d3 := byteOf resp (off + 5)
  let c := byteOf resp (off + 6)
  let a := byteOf resp (off + 7)
  let err := if a = 0xA5 then
               (if checkCRC table [s0, s1] [d0, d1, d2, d3] 6 c then false else true)
             else true
  (⟨[s0, s1], [d0, d1, d2, d3], c, a, err⟩, off + 8,
    sendingPacket ++ [crc8 table sendingPacket, 0x00, 0x00, 0x00, 0x00, 0x00])

/-- `writeRegister`: 8-byte data-write frame (command 0xF2); the outgoing CRC
byte is `getCRC6(header, data)`, modelled from the spec as the CRC8 over the
two header bytes followed by the four payload bytes. -/
def writeRegisterT (table : ℕ → ℕ) (address : ℕ) (payload : List ℕ)
    (resp : ℕ → ℕ) (off : ℕ) : Trans :=
  let sendingPacket : List ℕ := [0xF2, addrByte address]
  let p0 := payload.getD 0 0 % 256
  let p1 := payload.getD 1 0 % 256
  let p2 := payload.getD 2 0 % 256
  let p3 := payload.getD 3 0 % 256
  let s0 := byteOf resp off
  let s1 := byteOf resp (off + 1)
  let c := byteOf resp (off + 2)
  let d0 := byteOf resp (off + 3)
  let d1 := byteOf resp (off + 4)
  let d2 := byteOf resp (off + 5)
  let d3 := byteOf resp (off + 6)
  let a := byteOf resp (off + 7)
  let err := if a = 0xA5 then
               (if checkCRC table [s0, s1] [d0, d1, d2, d3] 2 c then false else true)
             else true
  (⟨[s0, s1], [d0, d1, d2, d3], c, a, err⟩, off + 8,
    sendingPacket ++ [p0, p1, p2, p3, crc8 table (sendingPacket ++ [p0, p1, p2, p3]), 0x00])

/-- One iteration of the bit-change loop of `changeBitsInRegister`: byte
index `3 - bitPosition/8`, in-byte offset `bitPosition % 8`, set or clear
according to `bitValue` (`&= ~(1 << off)` acts on a `uint8_t`, hence the
8-bit complement). -/
def setBitStep (data : List ℕ) (bitPosition : ℕ) (bitValue : Bool) : List ℕ :=
  let byteIndex := 3 - bitPosition / 8
  let bitOffset := bitPosition % 8
  if bitValue then data.set byteIndex (data.getD byteIndex 0 ||| (1 <<< bitOffset))
  else data.set byteIndex (data.getD byteIndex 0 &&& (0xFF ^^^ (1 <<< bitOffset)))

/-- The bit-change loop of `changeBitsInRegister` over `i = 0, …, numBits-1`;
`startBit + i` wraps as a `uint8_t` and `value` is a `uint8_t`. -/
def changeBitsData (data : List ℕ) (startBit numBits value : ℕ) : List ℕ :=
  (List.range numBits).foldl
    (fun d i => setBitStep d ((startBit + i) % 256) (((value % 256) >>> i) &&& 1 == 1)) data

/-- `changeBitsInRegister`: read, modify the captured data bytes, write back
unconditionally, then combine the two acknowledgment/error outcomes. -/
def changeBitsT (table : ℕ → ℕ) (address startBit numBits value : ℕ)
    (resp : ℕ → ℕ) (off : ℕ) : Trans :=
  let r1 := readRegisterT table address resp off
  let dp1 := r1.1
  let newData := changeBitsData dp1.data startBit numBits value
  let r2 := writeRegisterT table address newData resp r1.2.1
  let dp2 := r2.1
  let err := if dp1.ack == 0xA5 && dp2.ack == 0xA5 then
               (if dp1.error || dp2.error then true else false)
             else true
  (⟨dp1.status, newData, dp1.crc, dp1.ack, err⟩, r2.2.1, r1.2.2 ++ r2.2.2)

/-- `setCommandRegister`: dispatch on the command-register symbol, choosing
the bit width of the field; the default case returns `error = 1` without any
bus traffic. -/
def setCommandRegisterT (table : ℕ → ℕ) (symbol value : ℕ)
    (resp : ℕ → ℕ) (off : ℕ) : Trans :=
  if symbol = 0 ∨ symbol = 1 ∨ symbol = 9 ∨ symbol = 14 then
    changeBitsT table 0 symbol 1 value resp off
  else if symbol = 2 ∨ symbol = 11 then
    changeBitsT table 0 symbol 3 value resp off
  else if symbol = 5 ∨ symbol = 7 then
    changeBitsT table 0 symbol 2 value resp off
  else if symbol = 15 then
    changeBitsT table 0 symbol 4 value resp off
  else (⟨[0, 0], [0, 0, 0, 0], 0, 0, true⟩, off, [])

/-- `resetRegisters`: sets then clears SPI_RST (bit 14); only the second
call's packet is returned. -/
def resetRegistersT (table : ℕ → ℕ) (resp : ℕ → ℕ) (off : ℕ) : Trans :=
  let r1 := setCommandRegisterT table 14 1 resp off
  let r2 := setCommandRegisterT table 14 0 resp r1.2.1
  (r2.1, r2.2.1, r1.2.2 ++ r2.2.2)

/-- `resetStatusRegister`: writes four zero bytes to register 1. -/
def resetStatusRegisterT (table : ℕ → ℕ) (resp : ℕ → ℕ) (off : ℕ) : Trans :=
  writeRegisterT table 1 [0, 0, 0, 0] resp off

/-- The DAC step `2.5 * 2^(-25)` of `setOutputVoltage`. -/
def voltScale : ℚ := 5 / 2 ^ 26

/-- Truncation toward zero, the C++ `double → integer` conversion. -/
def truncQ (q : ℚ) : ℤ := Int.tdiv q.num (q.den : ℤ)

/-- The raw 32-bit register value computed by `setOutputVoltage`; the
conversion of the `double` result to `uint32_t` is modelled as truncation
toward zero reduced mod 2^32 (so `voltage = 1.25` gives `2^32 ≡ 0`, the
round-trip value the spec asserts). -/
def setOutputVoltageCode (voltage : ℚ) : ℕ :=
  if 5 / 4 ≤ voltage then
    ((truncQ ((4294967296 : ℚ) - (voltage - 5 / 4) / voltScale)) % 4294967296).toNat
  else
    ((truncQ ((voltage - 5 / 4) / (-voltScale))) % 4294967296).toNat

/-- The four data bytes of `setOutputVoltage`: `data[3-i] = value >> (i*8)`,
i.e. big-endian storage of the raw code. -/
def setOutputVoltageData (voltage : ℚ) : List ℕ :=
  let rv := setOutputVoltageCode voltage
  [rv >>> 24 % 256, rv >>> 16 % 256, rv >>> 8 % 256, rv % 256]

/-- `setOutputVoltage`: write the encoded voltage to register 4. -/
def setOutputVoltageT (table : ℕ → ℕ) (voltage : ℚ)
    (resp : ℕ → ℕ) (off : ℕ) : Trans :=
  writeRegisterT table 4 (setOutputVoltageData voltage) resp off

/-- Value of the `double` expression `fabs((end - start) / stepSize)`:
finite, `+inf` (nonzero over zero) or `NaN` (zero over zero). -/
inductive DSteps where
  | fin (q : ℚ)
  | pinf
  | nan
deriving DecidableEq

/-- The `steps` value of `rampOutputVoltage`, with the IEEE division-by-zero
cases represented explicitly. -/
def rampSteps (start endV stepSize : ℚ) : DSteps :=
  if stepSize = 0 then (if endV - start = 0 then .nan else .pinf)
  else .fin (abs ((endV - start) / stepSize))

/-- Number of iterations of the loop `for (i = 0; i <= steps - 1; i++)`:
`none` when the loop never exits (`steps = +inf`), otherwise the number of
naturals `i` with `i ≤ steps - 1` (any comparison with NaN is false). -/
def rampWriteCount (start endV stepSize : ℚ) : Option ℕ :=
  match rampSteps start endV stepSize with
  | .nan => some 0
  | .pinf => none
  | .fin q => some (if 1 ≤ q then (Int.floor q).toNat else 0)

/-- The sequence of voltages passed to `setOutputVoltage` by the ramp loop
(empty when the loop does not terminate): iteration `i` moves the running
value by `stepSize` toward `end` before writing. -/
def rampWrites (start endV stepSize : ℚ) : List ℚ :=
  match rampWriteCount start endV stepSize with
  | none => []
  | some n => (List.range n).map fun i : ℕ =>
      if endV ≤ start then start - stepSize * ((i : ℚ) + 1)
      else start + stepSize * ((i : ℚ) + 1)

/-- The `delayTime = duration / steps` value of the ramp, when it is a
finite number. -/
def rampDelayTime (start endV stepSize duration : ℚ) : Option ℚ :=
  match rampSteps start endV stepSize with
  | .fin q => if q = 0 then none else some (duration / q)
  | _ => none

/-- `rampOutputVoltage`: one `setOutputVoltage` write per ramp value, then a
final read of register 4. -/
def rampOutputVoltageT (table : ℕ → ℕ) (start endV stepSize : ℚ)
    (resp : ℕ → ℕ) (off : ℕ) : Trans :=
  let stepRun := (rampWrites start endV stepSize).foldl
    (fun (acc : ℕ × List ℕ) v =>
      let r := setOutputVoltageT table v resp acc.1
      (r.2.1, acc.2 ++ r.2.2)) (off, [])
  let r := readRegisterT table 4 resp stepRun.1
  (r.1, r.2.1, stepRun.2 ++ r.2.2)

/-- `LT8722::softStart`: the eight-step soft-start sequence; returns the
aggregate error flag and the final stream offset. -/
def softStartT (table : ℕ → ℕ) (resp : ℕ → ℕ) (off : ℕ) : Bool × ℕ :=
  let r0 := resetRegistersT table resp off
  let r1 := resetStatusRegisterT table resp r0.2.1
  let r2 := setCommandRegisterT table 0 1 resp r1.2.1
  let r3 := setOutputVoltageT table (5 / 2) resp r2.2.1
  let r4 := resetStatusRegisterT table resp r3.2.1
  let r5 := rampOutputVoltageT table (5 / 2) (5 / 4) (1 / 100) resp r4.2.1
  let r6 := setCommandRegisterT table 1 1 resp r5.2.1
  let r7 := resetStatusRegisterT table resp r6.2.1
  (if r0.1.error || r1.1.error || r2.1.error || r3.1.error || r4.1.error ||
      r5.1.error || r6.1.error || r7.1.error then true else false, r7.2.1)

/-- `LT8722::reset`: reset all registers then the status register. -/
def resetT (table : ℕ → ℕ) (resp : ℕ → ℕ) (off : ℕ) : Bool × ℕ :=
  let r0 := resetRegistersT table resp off
  let r1 := resetStatusRegisterT table resp r0.2.1
  (if r0.1.error || r1.1.error then true else false, r1.2.1)

/-- `LT8722::powerOff`: clear ENABLE_REQ and SWEN_REQ, then reset status. -/
def powerOffT (table : ℕ → ℕ) (resp : ℕ → ℕ) (off : ℕ) : Bool × ℕ :=
  let r0 := setCommandRegisterT table 0 0 resp off
  let r1 := setCommandRegisterT table 1 0 resp r0.2.1
  let r2 := resetStatusRegisterT table resp r1.2.1
  (if r0.1.error || r1.1.error || r2.1.error then true else false, r2.2.1)

/-- `LT8722::getStatus`: big-endian assembly of the two captured status
bytes of a `readStatus` transaction. -/
def getStatusT (table : ℕ → ℕ) (resp : ℕ → ℕ) (off : ℕ) : ℕ :=
  let dp := (readStatusT table resp off).1
  (dp.status.getD 0 0 <<< 8) ||| dp.status.getD 1 0

/-- `LT8722::getCommand`: big-endian assembly of the four captured data
bytes of a `readRegister(0)` transaction. -/
def getCommandT (table : ℕ → ℕ) (resp : ℕ → ℕ) (off : ℕ) : ℕ :=
  let dp := (readRegisterT table 0 resp off).1
  (dp.data.getD 0 0 <<< 24) ||| (dp.data.getD 1 0 <<< 16) |||
    (dp.data.getD 2 0 <<< 8) ||| dp.data.getD 3 0

/-- The 32-bit register word stored big-endian in four data bytes. -/
def word32 (data : List ℕ) : ℕ :=
  (data.getD 0 0 <<< 24) ||| (data.getD 1 0 <<< 16) |||
    (data.getD 2 0 <<< 8) ||| data.getD 3 0

end LT8722

namespace LT8722

/-- C1: for every `readStatus` or `readRegister` transaction, the result is
marked failed exactly unless the captured acknowledgment byte equals 0xA5 and
the locally computed CRC8 over the checked span (the status bytes for
`readStatus`, the status and data bytes for `readRegister`) equals the
captured CRC byte; in particular an acknowledgment other than 0xA5 fails
regardless of the CRC byte, and a valid acknowledgment with a CRC mismatch
fails. -/
theorem C1_ack_crc_error (table resp : ℕ → ℕ) (address off : ℕ) :
    (((readStatusT table resp off).1.error = false) ↔
      ((readStatusT table resp off).1.ack = 0xA5 ∧
        crc8 table (readStatusT table resp off).1.status =
          (readStatusT table resp off).1.crc)) ∧
    (((readRegisterT table address resp off).1.error = false) ↔
      ((readRegisterT table address resp off).1.ack = 0xA5 ∧
        crc8 table ((readRegisterT table address resp off).1.status ++
            (readRegisterT table address resp off).1.data) =
          (readRegisterT table address resp off).1.crc)) := by
  constructor
  · by_cases ha : byteOf resp (off + 3) = 0xA5 <;>
      by_cases hc : crc8 table [byteOf resp off, byteOf resp (off + 1)] = byteOf resp (off + 2) <;>
      simp [readStatusT, checkCRC, ha, hc]
  · by_cases ha : byteOf resp (off + 7) = 0xA5 <;>
      by_cases hc : crc8 table [byteOf resp off, byteOf resp (off + 1), byteOf resp (off + 2),
          byteOf resp (off + 3), byteOf resp (off + 4), byteOf resp (off + 5)] =
          byteOf resp (off + 6) <;>
      simp [readRegisterT, checkCRC, ha, hc]

/-- C2 counterexample: a register-write transaction with acknowledgment 0xA5
whose captured CRC byte differs from the CRC8 over the 6-byte span of status
plus data bytes, yet which is not marked failed (the code checks the 2-byte
status span only). -/
theorem C2_counterexample :
    ((writeRegisterT (fun n => n) 4 [0, 0, 0, 0]
        (fun n => [0, 0, 0, 1, 0, 0, 0, 0xA5].getD n 0) 0).1.ack = 0xA5) ∧
    crc8 (fun n => n)
        ((writeRegisterT (fun n => n) 4 [0, 0, 0, 0]
            (fun n => [0, 0, 0, 1, 0, 0, 0, 0xA5].getD n 0) 0).1.status ++
          (writeRegisterT (fun n => n) 4 [0, 0, 0, 0]
            (fun n => [0, 0, 0, 1, 0, 0, 0, 0xA5].getD n 0) 0).1.data) ≠
      (writeRegisterT (fun n => n) 4 [0, 0, 0, 0]
        (fun n => [0, 0, 0, 1, 0, 0, 0, 0xA5].getD n 0) 0).1.crc ∧
    (writeRegisterT (fun n => n) 4 [0, 0, 0, 0]
        (fun n => [0, 0, 0, 1, 0, 0, 0, 0xA5].getD n 0) 0).1.error = false := by
  decide

/-- C2 amended: for every register-write transaction whose captured
acknowledgment byte equals 0xA5, `writeRegister` computes the local CRC8
over the 2-byte span of status bytes only (the same span as the 4-position
frame) and marks the transaction failed exactly when that CRC differs from
the captured CRC byte. -/
theorem C2_amended_status_span (table resp : ℕ → ℕ) (address off : ℕ)
    (payload : List ℕ) :
    ((writeRegisterT table address payload resp off).1.error = false) ↔
      ((writeRegisterT table address payload resp off).1.ack = 0xA5 ∧
        crc8 table (writeRegisterT table address payload resp off).1.status =
          (writeRegisterT table address payload resp off).1.crc) := by
  by_cases ha : byteOf resp (off + 7) = 0xA5 <;>
    by_cases hc : crc8 table [byteOf resp off, byteOf resp (off + 1)] = byteOf resp (off + 2) <;>
    simp [writeRegisterT, checkCRC, ha, hc]

set_option maxRecDepth 2048 in
theorem shiftMask_mod (x : ℕ) (hx : x < 256) :
    ((x <<< 1) % 256) &&& 0xFE = (x <<< 1) &&& 0xFE := by
  revert hx
  revert x
  decide

/-- C7: the outgoing byte sequences of the three frame kinds match the frame
table exactly and in order: a status read sends 0xF0, `(1<<1)&0xFE`, the
CRC8 of those two header bytes and one 0x00 (4 bytes); a register write
sends 0xF2, `(address<<1)&0xFE`, the four payload bytes in order, the CRC8
of the header concatenated with the payload, and 0x00 (8 bytes); a register
read sends 0xF4, `(address<<1)&0xFE`, the CRC8 of the header and then five
0x00 bytes (8 bytes). -/
theorem C7_frames (table resp : ℕ → ℕ) (address off : ℕ) (payload : List ℕ) :
    (readStatusT table resp off).2.2 =
      [0xF0, (0x01 <<< 1) &&& 0xFE, crc8 table [0xF0, (0x01 <<< 1) &&& 0xFE], 0x00] ∧
    (readStatusT table resp off).2.2.length = 4 ∧
    (writeRegisterT table address payload resp off).2.2 =
      [0xF2, ((address % 256) <<< 1) &&& 0xFE, payload.getD 0 0 % 256, payload.getD 1 0 % 256,
        payload.getD 2 0 % 256, payload.getD 3 0 % 256,
        crc8 table [0xF2, ((address % 256) <<< 1) &&& 0xFE, payload.getD 0 0 % 256,
          payload.getD 1 0 % 256, payload.getD 2 0 % 256, payload.getD 3 0 % 256], 0x00] ∧
    (writeRegisterT table address payload resp off).2.2.length = 8 ∧
    (readRegisterT table address resp off).2.2 =
      [0xF4, ((address % 256) <<< 1) &&& 0xFE,
        crc8 table [0xF4, ((address % 256) <<< 1) &&& 0xFE], 0x00, 0x00, 0x00, 0x00, 0x00] ∧
    (readRegisterT table address resp off).2.2.length = 8 := by
  have h := shiftMask_mod (address % 256) (Nat.mod_lt _ (by norm_num))
  refine ⟨?_, ?_, ?_, ?_, ?_, ?_⟩ <;>
    simp [readStatusT, writeRegisterT, readRegisterT, addrByte, h]

/-- C10: `getStatus` and `getCommand` return the big-endian assembly of the
raw captured status bytes (respectively data bytes) of their transaction,
for every response stream and every CRC table: the returned integer depends
only on the captured bytes and not on the transaction's error flag, so the
value is the same whether the transaction succeeded or failed. -/
theorem C10_value_ignores_error (table resp : ℕ → ℕ) (off : ℕ) :
    getStatusT table resp off = (byteOf resp off <<< 8) ||| byteOf resp (off + 1) ∧
    getCommandT table resp off =
      (byteOf resp (off + 2) <<< 24) ||| (byteOf resp (off + 3) <<< 16) |||
        (byteOf resp (off + 4) <<< 8) ||| byteOf resp (off + 5) ∧
    (∀ table' : ℕ → ℕ, getStatusT table' resp off = getStatusT table resp off ∧
      getCommandT table' resp off = getCommandT table resp off) := by
  refine ⟨rfl, rfl, fun table' => ⟨rfl, rfl⟩⟩

end LT8722

namespace LT8722

theorem rampSteps_div_zero : rampSteps 0 1 0 = DSteps.pinf := by
  unfold rampSteps
  norm_num

theorem rampSteps_eq_ends (stepSize : ℚ) (h : stepSize ≠ 0) :
    rampSteps 3 3 stepSize = DSteps.fin 0 := by
  unfold rampSteps
  rw [if_neg h]
  norm_num

theorem rampWrites_no_steps : rampWrites 3 3 (1 / 100) = [] := by
  have h : rampWriteCount 3 3 (1 / 100) = some 0 := by
    unfold rampWriteCount
    rw [rampSteps_eq_ends (1 / 100) (by norm_num)]
    norm_num
  unfold rampWrites
  rw [h]
  simp

/-- C4: the ramp's degenerate cases, evaluated on the code.  With
`start == end` the loop bound `steps - 1` is negative (or NaN when the step
size is also zero), so zero writes are issued and only the final read of
register 4 is performed; but with `stepSize == 0` and `start ≠ end` the
division by zero yields `steps = +inf` and the loop `i <= steps - 1` never
exits, contradicting the required terminating zero-step no-op. -/
theorem C4_degenerate_ramp_eval :
    rampSteps 0 1 0 = DSteps.pinf ∧
    rampWriteCount 0 1 0 = none ∧
    rampSteps 3 3 0 = DSteps.nan ∧
    rampWriteCount 3 3 0 = some 0 ∧
    rampWriteCount 3 3 (1 / 100) = some 0 ∧
    rampWrites 3 3 (1 / 100) = [] ∧
    (rampOutputVoltageT (fun _ => 0) 3 3 (1 / 100) (fun _ => 0) 0).2.2 =
      (readRegisterT (fun _ => 0) 4 (fun _ => 0) 0).2.2 := by
  have h0 : rampSteps 0 1 0 = DSteps.pinf := rampSteps_div_zero
  have h1 : rampSteps 3 3 0 = DSteps.nan := by unfold rampSteps; norm_num
  have h2 : rampWriteCount 3 3 (1 / 100) = some 0 := by
    unfold rampWriteCount
    rw [rampSteps_eq_ends (1 / 100) (by norm_num)]
    norm_num
  refine ⟨h0, ?_, h1, ?_, h2, rampWrites_no_steps, ?_⟩
  · unfold rampWriteCount
    rw [h0]
  · unfold rampWriteCount
    rw [h1]
  · unfold rampOutputVoltageT
    rw [rampWrites_no_steps]
    simp

theorem rampSteps_scenario : rampSteps (5 / 2) (5 / 4) (1 / 100) = DSteps.fin 125 := by
  unfold rampSteps
  rw [if_neg (by norm_num : (1 / 100 : ℚ) ≠ 0)]
  rw [show ((5 / 4 - 5 / 2 : ℚ) / (1 / 100)) = -125 by norm_num, abs_neg]
  norm_num

theorem rampWriteCount_scenario : rampWriteCount (5 / 2) (5 / 4) (1 / 100) = some 125 := by
  unfold rampWriteCount
  rw [rampSteps_scenario]
  norm_num
  rfl

theorem rampWrites_scenario :
    rampWrites (5 / 2) (5 / 4) (1 / 100) =
      (List.range 125).map (fun i : ℕ => 5 / 2 - (1 / 100 : ℚ) * ((i : ℚ) + 1)) := by
  unfold rampWrites
  rw [rampWriteCount_scenario]
  refine List.map_congr_left fun i _ => ?_
  rw [if_pos (by norm_num : (5 / 4 : ℚ) ≤ 5 / 2)]

/-- C5: the ramp call with start 2.5, end 1.25, step size 0.01 and duration
20 issues exactly 125 intermediate `setOutputVoltage` writes, computes the
per-step delay `20 / 125 = 0.16` ms applied after each write, and the
written voltages strictly decrease from 2.5 (first write 2.49) down to 1.25
(last write). -/
theorem C5_ramp_scenario :
    rampWriteCount (5 / 2) (5 / 4) (1 / 100) = some 125 ∧
    (rampWrites (5 / 2) (5 / 4) (1 / 100)).length = 125 ∧
    rampDelayTime (5 / 2) (5 / 4) (1 / 100) 20 = some (4 / 25) ∧
    (rampWrites (5 / 2) (5 / 4) (1 / 100)).Chain' (fun a b => b < a) ∧
    (rampWrites (5 / 2) (5 / 4) (1 / 100)).head? = some (249 / 100) ∧
    (rampWrites (5 / 2) (5 / 4) (1 / 100)).getLast? = some (5 / 4) := by
  refine ⟨rampWriteCount_scenario, ?_, ?_, ?_, ?_, ?_⟩
  · rw [rampWrites_scenario, List.length_map, List.length_range]
  · unfold rampDelayTime
    rw [rampSteps_scenario]
    norm_num
  · rw [rampWrites_scenario, List.chain'_iff_get]
    intro i hi
    simp only [List.length_map, List.length_range] at hi
    simp only [List.get_eq_getElem, List.getElem_map, List.getElem_range]
    have hc : (((i + 1 : ℕ) : ℚ)) = (i : ℚ) + 1 := by push_cast; ring
    rw [hc]
    linarith
  · rw [rampWrites_scenario]
    rw [show (125 : ℕ) = 124 + 1 by norm_num, List.range_succ_eq_map]
    simp
    norm_num
  · rw [rampWrites_scenario, List.getLast?_eq_getElem?, List.length_map, List.length_range,
      List.getElem?_map, List.getElem?_range (by norm_num : 125 - 1 < 125)]
    simp only [Option.map_some']
    push_cast
    norm_num

end LT8722

namespace LT8722

theorem testBit_byte_high {x : ℕ} (hx : x < 256) {m : ℕ} (hm : 8 ≤ m) :
    x.testBit m = false := by
  refine Nat.testBit_lt_two_pow (lt_of_lt_of_le hx ?_)
  calc (256 : ℕ) = 2 ^ 8 := by norm_num
    _ ≤ 2 ^ m := Nat.pow_le_pow_right (by norm_num) hm

theorem orBit_lt {x : ℕ} (hx : x < 256) {k : ℕ} (hk : k < 8) :
    x ||| (1 <<< k) < 256 := by
  have e : (256 : ℕ) = 2 ^ 8 := by norm_num
  rw [e] at hx ⊢
  refine Nat.or_lt_two_pow hx ?_
  rw [Nat.one_shiftLeft]
  exact Nat.pow_lt_pow_right (by norm_num) hk

theorem andMask_lt {x : ℕ} (hx : x < 256) (y : ℕ) : x &&& y < 256 :=
  lt_of_le_of_lt Nat.and_le_left hx

theorem set4_0 (c0 c1 c2 c3 x : ℕ) : List.set [c0, c1, c2, c3] 0 x = [x, c1, c2, c3] := rfl

theorem set4_1 (c0 c1 c2 c3 x : ℕ) : List.set [c0, c1, c2, c3] 1 x = [c0, x, c2, c3] := rfl

theorem set4_2 (c0 c1 c2 c3 x : ℕ) : List.set [c0, c1, c2, c3] 2 x = [c0, c1, x, c3] := rfl

theorem set4_3 (c0 c1 c2 c3 x : ℕ) : List.set [c0, c1, c2, c3] 3 x = [c0, c1, c2, x] := rfl

theorem getD4_0 (c0 c1 c2 c3 : ℕ) : ([c0, c1, c2, c3] : List ℕ).getD 0 0 = c0 := rfl

theorem getD4_1 (c0 c1 c2 c3 : ℕ) : ([c0, c1, c2, c3] : List ℕ).getD 1 0 = c1 := rfl

theorem getD4_2 (c0 c1 c2 c3 : ℕ) : ([c0, c1, c2, c3] : List ℕ).getD 2 0 = c2 := rfl

theorem getD4_3 (c0 c1 c2 c3 : ℕ) : ([c0, c1, c2, c3] : List ℕ).getD 3 0 = c3 := rfl

/-- Bit `p` of the big-endian word of four bytes lives in byte `3 - p / 8`
at in-byte offset `p % 8`. -/
theorem word32_testBit (b0 b1 b2 b3 : ℕ) (h0 : b0 < 256) (h1 : b1 < 256)
    (h2 : b2 < 256) (h3 : b3 < 256) {p : ℕ} (hp : p < 32) :
    (word32 [b0, b1, b2, b3]).testBit p =
      (([b0, b1, b2, b3] : List ℕ).getD (3 - p / 8) 0).testBit (p % 8) := by
  have hd : p / 8 = 0 ∨ p / 8 = 1 ∨ p / 8 = 2 ∨ p / 8 = 3 := by omega
  simp only [word32, getD4_0, getD4_1, getD4_2, getD4_3, Nat.testBit_or,
    Nat.testBit_shiftLeft, ge_iff_le]
  rcases hd with h | h | h | h
  · have e24 : ¬ (24 ≤ p) := by omega
    have e16 : ¬ (16 ≤ p) := by omega
    have e8 : ¬ (8 ≤ p) := by omega
    have ep : p % 8 = p := by omega
    simp [h, e24, e16, e8, ep, getD4_3]
  · have e24 : ¬ (24 ≤ p) := by omega
    have e16 : ¬ (16 ≤ p) := by omega
    have e8 : 8 ≤ p := by omega
    have ep : p % 8 = p - 8 := by omega
    have hb3 : b3.testBit p = false := testBit_byte_high h3 (by omega)
    simp [h, e24, e16, e8, ep, hb3, getD4_2]
  · have e24 : ¬ (24 ≤ p) := by omega
    have e16 : 16 ≤ p := by omega
    have ep : p % 8 = p - 16 := by omega
    have hb3 : b3.testBit p = false := testBit_byte_high h3 (by omega)
    have hb2 : b2.testBit (p - 8) = false := testBit_byte_high h2 (by omega)
    simp [h, e24, e16, (by omega : 8 ≤ p), ep, hb3, hb2, getD4_1]
  · have e24 : 24 ≤ p := by omega
    have ep : p % 8 = p - 24 := by omega
    have hb3 : b3.testBit p = false := testBit_byte_high h3 (by omega)
    have hb2 : b2.testBit (p - 8) = false := testBit_byte_high h2 (by omega)
    have hb1 : b1.testBit (p - 16) = false := testBit_byte_high h1 (by omega)
    simp [h, e24, (by omega : 16 ≤ p), (by omega : 8 ≤ p), ep, hb3, hb2, hb1, getD4_0]

theorem testBit_setBitByte (x k m : ℕ) :
    (x ||| (1 <<< k)).testBit m = (x.testBit m || decide (k = m)) := by
  rw [Nat.one_shiftLeft, Nat.testBit_or, Nat.testBit_two_pow]

theorem testBit_clearBitByte (x k m : ℕ) (hm : m < 8) :
    (x &&& (0xFF ^^^ (1 <<< k))).testBit m = (x.testBit m && !(decide (k = m))) := by
  rw [Nat.one_shiftLeft, Nat.testBit_and, Nat.testBit_xor, Nat.testBit_two_pow]
  rw [show (0xFF : ℕ) = 2 ^ 8 - 1 by norm_num, Nat.testBit_two_pow_sub_one]
  simp [hm]

theorem bitVal_eq_testBit (w n : ℕ) : ((w >>> n) &&& 1 == 1) = w.testBit n := by
  rw [Nat.and_one_is_mod, Nat.testBit_to_div_mod, Nat.shiftRight_eq_div_pow]
  rcases Nat.mod_two_eq_zero_or_one (w / 2 ^ n) with h | h <;> simp [h]

theorem setBitStep_bytes (c0 c1 c2 c3 : ℕ) (h0 : c0 < 256) (h1 : c1 < 256)
    (h2 : c2 < 256) (h3 : c3 < 256) (pos : ℕ) (b : Bool) :
    ∃ e0 e1 e2 e3 : ℕ, setBitStep [c0, c1, c2, c3] pos b = [e0, e1, e2, e3] ∧
      e0 < 256 ∧ e1 < 256 ∧ e2 < 256 ∧ e3 < 256 := by
  have hk : pos % 8 < 8 := by omega
  have hd : 3 - pos / 8 = 0 ∨ 3 - pos / 8 = 1 ∨ 3 - pos / 8 = 2 ∨ 3 - pos / 8 = 3 := by omega
  rcases hd with h | h | h | h <;> cases b
  · exact ⟨c0 &&& (0xFF ^^^ (1 <<< (pos % 8))), c1, c2, c3,
      by simp [setBitStep, h, set4_0, getD4_0], andMask_lt h0 _, h1, h2, h3⟩
  · exact ⟨c0 ||| (1 <<< (pos % 8)), c1, c2, c3,
      by simp [setBitStep, h, set4_0, getD4_0], orBit_lt h0 hk, h1, h2, h3⟩
  · exact ⟨c0, c1 &&& (0xFF ^^^ (1 <<< (pos % 8))), c2, c3,
      by simp [setBitStep, h, set4_1, getD4_1], h0, andMask_lt h1 _, h2, h3⟩
  · exact ⟨c0, c1 ||| (1 <<< (pos % 8)), c2, c3,
      by simp [setBitStep, h, set4_1, getD4_1], h0, orBit_lt h1 hk, h2, h3⟩
  · exact ⟨c0, c1, c2 &&& (0xFF ^^^ (1 <<< (pos % 8))), c3,
      by simp [setBitStep, h, set4_2, getD4_2], h0, h1, andMask_lt h2 _, h3⟩
  · exact ⟨c0, c1, c2 ||| (1 <<< (pos % 8)), c3,
      by simp [setBitStep, h, set4_2, getD4_2], h0, h1, orBit_lt h2 hk, h3⟩
  · exact ⟨c0, c1, c2, c3 &&& (0xFF ^^^ (1 <<< (pos % 8))),
      by simp [setBitStep, h, set4_3, getD4_3], h0, h1, h2, andMask_lt h3 _⟩
  · exact ⟨c0, c1, c2, c3 ||| (1 <<< (pos % 8)),
      by simp [setBitStep, h, set4_3, getD4_3], h0, h1, h2, orBit_lt h3 hk⟩

theorem testBit_modByte (x k m : ℕ) (hm : m < 8) (b : Bool) :
    (if b then x ||| (1 <<< k) else x &&& (0xFF ^^^ (1 <<< k))).testBit m =
      if m = k then b else x.testBit m := by
  cases b
  · rw [show (if (false : Bool) then x ||| (1 <<< k) else x &&& (0xFF ^^^ (1 <<< k))) =
      x &&& (0xFF ^^^ (1 <<< k)) by simp, testBit_clearBitByte x k m hm]
    by_cases hmk : m = k
    · subst hmk
      simp
    · simp [hmk, Ne.symm hmk]
  · rw [show (if (true : Bool) then x ||| (1 <<< k) else x &&& (0xFF ^^^ (1 <<< k))) =
      x ||| (1 <<< k) by simp, testBit_setBitByte]
    by_cases hmk : m = k
    · subst hmk
      simp
    · simp [hmk, Ne.symm hmk]

theorem setBitStep_eq_0 (c0 c1 c2 c3 pos : ℕ) (b : Bool) (h : 3 - pos / 8 = 0) :
    setBitStep [c0, c1, c2, c3] pos b =
      [if b then c0 ||| (1 <<< (pos % 8)) else c0 &&& (0xFF ^^^ (1 <<< (pos % 8))),
        c1, c2, c3] := by
  cases b <;> simp [setBitStep, h, set4_0, getD4_0]

theorem setBitStep_eq_1 (c0 c1 c2 c3 pos : ℕ) (b : Bool) (h : 3 - pos / 8 = 1) :
    setBitStep [c0, c1, c2, c3] pos b =
      [c0, if b then c1 ||| (1 <<< (pos % 8)) else c1 &&& (0xFF ^^^ (1 <<< (pos % 8))),
        c2, c3] := by
  cases b <;> simp [setBitStep, h, set4_1, getD4_1]

theorem setBitStep_eq_2 (c0 c1 c2 c3 pos : ℕ) (b : Bool) (h : 3 - pos / 8 = 2) :
    setBitStep [c0, c1, c2, c3] pos b =
      [c0, c1, if b then c2 ||| (1 <<< (pos % 8)) else c2 &&& (0xFF ^^^ (1 <<< (pos % 8))),
        c3] := by
  cases b <;> simp [setBitStep, h, set4_2, getD4_2]

theorem setBitStep_eq_3 (c0 c1 c2 c3 pos : ℕ) (b : Bool) (h : 3 - pos / 8 = 3) :
    setBitStep [c0, c1, c2, c3] pos b =
      [c0, c1, c2,
        if b then c3 ||| (1 <<< (pos % 8)) else c3 &&& (0xFF ^^^ (1 <<< (pos % 8)))] := by
  cases b <;> simp [setBitStep, h, set4_3, getD4_3]

theorem setBitStep_getD (c0 c1 c2 c3 pos : ℕ) (b : Bool) (j m : ℕ)
    (hj : j < 4) (hm : m < 8) :
    ((setBitStep [c0, c1, c2, c3] pos b).getD j 0).testBit m =
      if j = 3 - pos / 8 ∧ m = pos % 8 then b
      else (([c0, c1, c2, c3] : List ℕ).getD j 0).testBit m := by
  have hd : 3 - pos / 8 = 0 ∨ 3 - pos / 8 = 1 ∨ 3 - pos / 8 = 2 ∨ 3 - pos / 8 = 3 := by omega
  have hj4 : j = 0 ∨ j = 1 ∨ j = 2 ∨ j = 3 := by omega
  rcases hd with h | h | h | h
  · rw [setBitStep_eq_0 c0 c1 c2 c3 pos b h, h]
    rcases hj4 with hj' | hj' | hj' | hj' <;> subst hj'
    · simp only [getD4_0]
      rw [testBit_modByte c0 (pos % 8) m hm b]
      simp
    · simp [getD4_1]
    · simp [getD4_2]
    · simp [getD4_3]
  · rw [setBitStep_eq_1 c0 c1 c2 c3 pos b h, h]
    rcases hj4 with hj' | hj' | hj' | hj' <;> subst hj'
    · simp [getD4_0]
    · simp only [getD4_1]
      rw [testBit_modByte c1 (pos % 8) m hm b]
      simp
    · simp [getD4_2]
    · simp [getD4_3]
  · rw [setBitStep_eq_2 c0 c1 c2 c3 pos b h, h]
    rcases hj4 with hj' | hj' | hj' | hj' <;> subst hj'
    · simp [getD4_0]
    · simp [getD4_1]
    · simp only [getD4_2]
      rw [testBit_modByte c2 (pos % 8) m hm b]
      simp
    · simp [getD4_3]
  · rw [setBitStep_eq_3 c0 c1 c2 c3 pos b h, h]
    rcases hj4 with hj' | hj' | hj' | hj' <;> subst hj'
    · simp [getD4_0]
    · simp [getD4_1]
    · simp [getD4_2]
    · simp only [getD4_3]
      rw [testBit_modByte c3 (pos % 8) m hm b]
      simp

theorem changeBitsData_succ (d : List ℕ) (s n v : ℕ) :
    changeBitsData d s (n + 1) v =
      setBitStep (changeBitsData d s n v) ((s + n) % 256) (((v % 256) >>> n) &&& 1 == 1) := by
  unfold changeBitsData
  rw [List.range_succ, List.foldl_append]
  rfl

theorem changeBitsData_zero (d : List ℕ) (s v : ℕ) : changeBitsData d s 0 v = d := by
  simp [changeBitsData]

theorem changeBitsData_spec (v n : ℕ) : ∀ s : ℕ, s + n ≤ 32 →
    ∀ c0 c1 c2 c3 : ℕ, c0 < 256 → c1 < 256 → c2 < 256 → c3 < 256 →
      (∃ e0 e1 e2 e3 : ℕ, changeBitsData [c0, c1, c2, c3] s n v = [e0, e1, e2, e3] ∧
        e0 < 256 ∧ e1 < 256 ∧ e2 < 256 ∧ e3 < 256) ∧
      (∀ j m : ℕ, j < 4 → m < 8 →
        ((changeBitsData [c0, c1, c2, c3] s n v).getD j 0).testBit m =
          if s ≤ (3 - j) * 8 + m ∧ (3 - j) * 8 + m < s + n then
            (v % 256).testBit ((3 - j) * 8 + m - s)
          else (([c0, c1, c2, c3] : List ℕ).getD j 0).testBit m) := by
  induction n with
  | zero =>
    intro s hsn c0 c1 c2 c3 h0 h1 h2 h3
    refine ⟨⟨c0, c1, c2, c3, changeBitsData_zero _ _ _, h0, h1, h2, h3⟩, ?_⟩
    intro j m hj hm
    rw [if_neg (by omega), changeBitsData_zero]
  | succ n ih =>
    intro s hsn c0 c1 c2 c3 h0 h1 h2 h3
    obtain ⟨⟨e0, e1, e2, e3, heq, he0, he1, he2, he3⟩, hbit⟩ :=
      ih s (by omega) c0 c1 c2 c3 h0 h1 h2 h3
    have hmod : (s + n) % 256 = s + n := Nat.mod_eq_of_lt (by omega)
    constructor
    · rw [changeBitsData_succ, heq, hmod]
      exact setBitStep_bytes e0 e1 e2 e3 he0 he1 he2 he3 (s + n) _
    · intro j m hj hm
      rw [changeBitsData_succ, heq, hmod,
        setBitStep_getD e0 e1 e2 e3 (s + n) _ j m hj hm]
      have hb := hbit j m hj hm
      rw [heq] at hb
      by_cases hp : (3 - j) * 8 + m = s + n
      · rw [if_pos ⟨by omega, by omega⟩, if_pos (by omega : s ≤ (3 - j) * 8 + m ∧
          (3 - j) * 8 + m < s + (n + 1))]
        rw [bitVal_eq_testBit, show (3 - j) * 8 + m - s = n by omega]
      · rw [if_neg (by omega : ¬ (j = 3 - (s + n) / 8 ∧ m = (s + n) % 8)), hb]
        by_cases hr : s ≤ (3 - j) * 8 + m ∧ (3 - j) * 8 + m < s + n
        · rw [if_pos hr, if_pos (by omega : s ≤ (3 - j) * 8 + m ∧
            (3 - j) * 8 + m < s + (n + 1))]
        · rw [if_neg hr, if_neg (by omega : ¬ (s ≤ (3 - j) * 8 + m ∧
            (3 - j) * 8 + m < s + (n + 1)))]

/-- C3: the bit-change loop of `changeBitsInRegister` replaces, in the
big-endian 32-bit word formed by the four data bytes obtained by the read,
exactly the `numBits` bits starting at `startBit` (widths 1 to 4) with the
corresponding low bits of `value`, leaving every other bit unchanged; and
bit position `p` of the word lives in byte index `3 - p / 8` at in-byte
offset `p % 8` (bit 0 in the least-significant byte). -/
theorem C3_bitfield_update (b0 b1 b2 b3 s n v p : ℕ)
    (h0 : b0 < 256) (h1 : b1 < 256) (h2 : b2 < 256) (h3 : b3 < 256)
    (hv : v < 256) (hn1 : 1 ≤ n) (hn4 : n ≤ 4) (hsn : s + n ≤ 32) (hp : p < 32) :
    ((word32 (changeBitsData [b0, b1, b2, b3] s n v)).testBit p =
      if s ≤ p ∧ p < s + n then v.testBit (p - s)
      else (word32 [b0, b1, b2, b3]).testBit p) ∧
    (word32 [b0, b1, b2, b3]).testBit p =
      (([b0, b1, b2, b3] : List ℕ).getD (3 - p / 8) 0).testBit (p % 8) := by
  obtain ⟨⟨e0, e1, e2, e3, heq, he0, he1, he2, he3⟩, hbit⟩ :=
    changeBitsData_spec v n s hsn b0 b1 b2 b3 h0 h1 h2 h3
  refine ⟨?_, word32_testBit b0 b1 b2 b3 h0 h1 h2 h3 hp⟩
  rw [heq, word32_testBit e0 e1 e2 e3 he0 he1 he2 he3 hp]
  have hb := hbit (3 - p / 8) (p % 8) (by omega) (by omega)
  rw [heq] at hb
  rw [hb, show (3 - (3 - p / 8)) * 8 + p % 8 = p by omega, Nat.mod_eq_of_lt hv,
    word32_testBit b0 b1 b2 b3 h0 h1 h2 h3 hp]

/-- Witness for C3 at the spec's example: register word 0, bit offset 15,
width 4, value 5; bit 15 of the resulting word is set per the low bit of 5. -/
theorem C3_bitfield_update_witness :
    ((word32 (changeBitsData [0, 0, 0, 0] 15 4 5)).testBit 15 =
      if 15 ≤ 15 ∧ 15 < 15 + 4 then (5 : ℕ).testBit (15 - 15)
      else (word32 [0, 0, 0, 0]).testBit 15) ∧
    (word32 [0, 0, 0, 0]).testBit 15 =
      (([0, 0, 0, 0] : List ℕ).getD (3 - 15 / 8) 0).testBit (15 % 8) :=
  C3_bitfield_update 0 0 0 0 15 4 5 15 (by decide) (by decide) (by decide) (by decide)
    (by decide) (by decide) (by decide) (by decide) (by decide)

end LT8722

namespace LT8722

/-- C9: `changeBitsInRegister` performs its write sub-transaction
unconditionally after the read: for every table, response stream, offset and
arguments — in particular whenever the read sub-transaction failed — the
byte trace of the operation is the read frame followed by the full
register-write frame carrying the read's captured data bytes with the
targeted bits modified, and the operation always consumes both 8-byte
transactions. -/
theorem C9_unconditional_write (table resp : ℕ → ℕ)
    (address startBit numBits value off : ℕ) :
    (changeBitsT table address startBit numBits value resp off).2.2 =
      (readRegisterT table address resp off).2.2 ++
        (writeRegisterT table address
          (changeBitsData (readRegisterT table address resp off).1.data
            startBit numBits value)
          resp (readRegisterT table address resp off).2.1).2.2 ∧
    (changeBitsT table address startBit numBits value resp off).2.1 = off + 16 ∧
    (changeBitsT table address startBit numBits value resp off).1.data =
      changeBitsData (readRegisterT table address resp off).1.data
        startBit numBits value := by
  refine ⟨rfl, rfl, rfl⟩

/-- C8 counterexample: a run of `resetRegisters` in which the first
`setCommandRegister` sub-operation fails (its read is acknowledged with 0x00
instead of 0xA5) while the second succeeds; the aggregate result reports no
failure, so the first sub-operation's flag is dropped rather than ORed in. -/
theorem C8_counterexample :
    (setCommandRegisterT (fun _ => 0) 14 1
        (fun n => (List.replicate 16 0 ++ [0, 0, 0, 0, 0, 0, 0, 0xA5] ++
          [0, 0, 0, 0, 0, 0, 0, 0xA5]).getD n 0) 0).1.error = true ∧
    (resetRegistersT (fun _ => 0)
        (fun n => (List.replicate 16 0 ++ [0, 0, 0, 0, 0, 0, 0, 0xA5] ++
          [0, 0, 0, 0, 0, 0, 0, 0xA5]).getD n 0) 0).1.error = false := by
  refine ⟨by decide, by decide⟩

/-- C8 amended: the composite operations `softStart`, `reset` and `powerOff`
OR together the failure flags of all of their direct sub-operations and
report failure exactly when at least one of them failed; the internal
sub-sequence `resetRegisters`, however, returns only the packet of its
second `setCommandRegister` call, so the first call's failure flag is
dropped from the aggregate. -/
theorem C8_amended_or_flags (table resp : ℕ → ℕ) (off : ℕ) :
    ((softStartT table resp off).1 = true ↔
      ((resetRegistersT table resp off).1.error = true ∨
        (resetStatusRegisterT table resp (resetRegistersT table resp off).2.1).1.error = true ∨
        (setCommandRegisterT table 0 1 resp
          (resetStatusRegisterT table resp (resetRegistersT table resp off).2.1).2.1).1.error = true ∨
        (setOutputVoltageT table (5 / 2) resp
          (setCommandRegisterT table 0 1 resp
            (resetStatusRegisterT table resp (resetRegistersT table resp off).2.1).2.1).2.1).1.error = true ∨
        (resetStatusRegisterT table resp
          (setOutputVoltageT table (5 / 2) resp
            (setCommandRegisterT table 0 1 resp
              (resetStatusRegisterT table resp (resetRegistersT table resp off).2.1).2.1).2.1).2.1).1.error = true ∨
        (rampOutputVoltageT table (5 / 2) (5 / 4) (1 / 100) resp
          (resetStatusRegisterT table resp
            (setOutputVoltageT table (5 / 2) resp
              (setCommandRegisterT table 0 1 resp
                (resetStatusRegisterT table resp (resetRegistersT table resp off).2.1).2.1).2.1).2.1).2.1).1.error = true ∨
        (setCommandRegisterT table 1 1 resp
          (rampOutputVoltageT table (5 / 2) (5 / 4) (1 / 100) resp
            (resetStatusRegisterT table resp
              (setOutputVoltageT table (5 / 2) resp
                (setCommandRegisterT table 0 1 resp
                  (resetStatusRegisterT table resp (resetRegistersT table resp off).2.1).2.1).2.1).2.1).2.1).2.1).1.error = true ∨
        (resetStatusRegisterT table resp
          (setCommandRegisterT table 1 1 resp
            (rampOutputVoltageT table (5 / 2) (5 / 4) (1 / 100) resp
              (resetStatusRegisterT table resp
                (setOutputVoltageT table (5 / 2) resp
                  (setCommandRegisterT table 0 1 resp
                    (resetStatusRegisterT table resp (resetRegistersT table resp off).2.1).2.1).2.1).2.1).2.1).2.1).2.1).1.error = true)) ∧
    ((resetT table resp off).1 = true ↔
      ((resetRegistersT table resp off).1.error = true ∨
        (resetStatusRegisterT table resp (resetRegistersT table resp off).2.1).1.error = true)) ∧
    ((powerOffT table resp off).1 = true ↔
      ((setCommandRegisterT table 0 0 resp off).1.error = true ∨
        (setCommandRegisterT table 1 0 resp (setCommandRegisterT table 0 0 resp off).2.1).1.error = true ∨
        (resetStatusRegisterT table resp
          (setCommandRegisterT table 1 0 resp
            (setCommandRegisterT table 0 0 resp off).2.1).2.1).1.error = true)) ∧
    (resetRegistersT table resp off).1 =
      (setCommandRegisterT table 14 0 resp
        (setCommandRegisterT table 14 1 resp off).2.1).1 := by
  refine ⟨?_, ?_, ?_, rfl⟩
  · simp only [softStartT]
    by_cases e0 : (resetRegistersT table resp off).1.error <;>
      simp [e0, Bool.or_eq_true, or_assoc]
  · simp only [resetT]
    by_cases e0 : (resetRegistersT table resp off).1.error <;>
      simp [e0, Bool.or_eq_true]
  · simp only [powerOffT]
    by_cases e0 : (setCommandRegisterT table 0 0 resp off).1.error <;>
      simp [e0, Bool.or_eq_true]

end LT8722

namespace LT8722

theorem truncQ_intCast (z : ℤ) : truncQ ((z : ℚ)) = z := by
  simp [truncQ, Int.tdiv_one]

/-- C6: `setOutputVoltage` encodes the voltage exactly as the claim's
branch-split formula (trunc toward zero, wrapped mod 2^32), stores the raw
code big-endian in the four data bytes, and sends them as the payload of a
register-write frame to register 4 (address byte `(4 << 1) & 0xFE = 0x08`);
in particular 1.25 V encodes to raw code 0, one DAC step below 1.25 V to the
small positive code 1, and one DAC step above 1.25 V to `2^32 - 1`. -/
theorem C6_voltage_code (table resp : ℕ → ℕ) (off : ℕ) (v : ℚ) :
    setOutputVoltageCode v =
      (if v < 5 / 4 then (truncQ ((v - 5 / 4) / (-voltScale)) % 4294967296).toNat
       else (truncQ ((4294967296 : ℚ) - (v - 5 / 4) / voltScale) % 4294967296).toNat) ∧
    setOutputVoltageData v =
      [setOutputVoltageCode v >>> 24 % 256, setOutputVoltageCode v >>> 16 % 256,
        setOutputVoltageCode v >>> 8 % 256, setOutputVoltageCode v % 256] ∧
    (setOutputVoltageT table v resp off).2.2 =
      [0xF2, 0x08, setOutputVoltageCode v >>> 24 % 256, setOutputVoltageCode v >>> 16 % 256,
        setOutputVoltageCode v >>> 8 % 256, setOutputVoltageCode v % 256,
        crc8 table [0xF2, 0x08, setOutputVoltageCode v >>> 24 % 256,
          setOutputVoltageCode v >>> 16 % 256, setOutputVoltageCode v >>> 8 % 256,
          setOutputVoltageCode v % 256], 0x00] ∧
    setOutputVoltageCode (5 / 4) = 0 ∧
    setOutputVoltageCode (5 / 4 - voltScale) = 1 ∧
    setOutputVoltageCode (5 / 4 + voltScale) = 2 ^ 32 - 1 := by
  refine ⟨?_, rfl, ?_, ?_, ?_, ?_⟩
  · rcases lt_or_le v (5 / 4 : ℚ) with hv | hv
    · rw [if_pos hv]
      unfold setOutputVoltageCode
      rw [if_neg (not_le.mpr hv)]
    · rw [if_neg (not_lt.mpr hv)]
      unfold setOutputVoltageCode
      rw [if_pos hv]
  · simp [setOutputVoltageT, writeRegisterT, setOutputVoltageData, addrByte,
      Nat.mod_mod_of_dvd, (by decide : 8 &&& 254 = 8)]
  · unfold setOutputVoltageCode
    rw [if_pos (le_refl (5 / 4 : ℚ))]
    rw [show ((4294967296 : ℚ) - (5 / 4 - 5 / 4) / voltScale) = ((4294967296 : ℤ) : ℚ) by
      norm_num, truncQ_intCast]
    norm_num
  · unfold setOutputVoltageCode
    rw [if_neg (by norm_num [voltScale] : ¬ (5 / 4 : ℚ) ≤ 5 / 4 - voltScale)]
    rw [show ((5 / 4 - voltScale - 5 / 4 : ℚ) / (-voltScale)) = ((1 : ℤ) : ℚ) by
      norm_num [voltScale], truncQ_intCast]
    norm_num
  · unfold setOutputVoltageCode
    rw [if_pos (by norm_num [voltScale] : (5 / 4 : ℚ) ≤ 5 / 4 + voltScale)]
    rw [show ((4294967296 : ℚ) - (5 / 4 + voltScale - 5 / 4) / voltScale) =
      ((4294967295 : ℤ) : ℚ) by norm_num [voltScale], truncQ_intCast]
    norm_num
    rfl

end LT8722
